import Mathlib

/-!
Verification of the spawn replicating reverse proxy (openprovider/spawn).

Shallow embedding of the node inventory (`node.go`), the dispatcher and the
worker (`server.go`), the queue control plane (`queue.go`), the metrics
observer and the helper `isAlphaNumeric`.  Channels are modelled as lists /
counters, the external HTTP world as boolean or option-valued oracles, and
Go's `map` snapshots as enumeration lists (Go map iteration order is
unspecified; the model fixes the insertion-order enumeration, and every
counterexample below is robust to that choice or explicitly discussed).
-/

namespace Spawn

/-- `Node` from node.go: host, port, priority, active, maintenance.
Go's `uint64` port is modelled as `Nat` (only `port == 0` comparisons and
equality matter), the `int` priority as `Int`. -/
structure Node where
  host : String
  port : Nat
  priority : Int
  active : Bool
  maintenance : Bool
deriving DecidableEq, Repr

/-- `byPriority.Less` from node.go lines 69-80, translated if-for-if:
two positives compare ascending, two negatives compare descending,
`bp[i].Priority >= 0 && bp[j].Priority <= 0` yields true, otherwise false.
Note that for two zero priorities the third branch fires, so
`lessNode x y = true` AND `lessNode y x = true`: the comparator is not a
strict order on the zero-priority class. -/
def lessNode (a b : Node) : Bool :=
  if a.priority > 0 && b.priority > 0 then a.priority < b.priority
  else if a.priority < 0 && b.priority < 0 then a.priority > b.priority
  else if a.priority ≥ 0 && b.priority ≤ 0 then true
  else false

/-- Priority class of §4.2 of the spec: positives (class 0) precede zeros
(class 1) precede negatives (class 2). -/
def prClass (p : Int) : Nat :=
  if 0 < p then 0 else if p = 0 then 1 else 2

/-- Within-class measure: ascending value for positives, ascending absolute
value (descending value) for negatives. -/
def prSub (p : Int) : Int :=
  if 0 < p then p else if p = 0 then 0 else -p

/-- The (non-strict) priority total order of §4.2, as a relation on nodes:
lexicographic on (class, within-class measure). -/
def rankLE (a b : Node) : Prop :=
  prClass a.priority < prClass b.priority ∨
    (prClass a.priority = prClass b.priority ∧ prSub a.priority ≤ prSub b.priority)

/-- The reverse of the priority order, used for the reversed prefix of the
insertion-sort accumulator. -/
def rankGE (a b : Node) : Prop := rankLE b a

/-! ### Go's sort.Sort, as run on `byPriority`

`sort.Sort` (Go standard library, 2016 era) runs `quickSort`; for a range of
at most 12 elements it performs one Shell-sort pass with gap 6 followed by an
insertion sort, both using `Less` and `Swap`.  This is the exact code path for
every slice of at most 12 elements (larger slices recurse into it).  The model
below reproduces that base routine: `shellPass` is the gap-6 pass and
`insertionSortGo` the in-place insertion sort (the accumulator holds the
already sorted prefix reversed, so the head is the rightmost element, matching
the leftward swap loop `for j := i; j > a && Less(j, j-1); j--`). -/

/-- One leftward bubble of `x` into the reversed sorted prefix. -/
def bubbleLeft (x : Node) : List Node → List Node
  | [] => [x]
  | y :: ys => if lessNode x y then y :: bubbleLeft x ys else x :: y :: ys

/-- The outer insertion-sort loop over the remaining elements. -/
def insertLoop : List Node → List Node → List Node
  | acc, [] => acc
  | acc, x :: xs => insertLoop (bubbleLeft x acc) xs

/-- Go's in-place insertion sort with the `byPriority.Less` comparator. -/
def insertionSortGo (l : List Node) : List Node :=
  (insertLoop [] l).reverse

/-- Swap the elements at positions `j` and `i` (both in bounds). -/
def listSwap (l : List Node) (j i : Nat) : List Node :=
  match l[j]?, l[i]? with
  | some x, some y => (l.set j y).set i x
  | _, _ => l

/-- One step of the gap-6 Shell pass: `if Less(i, i-6) { Swap(i, i-6) }`. -/
def cmpSwapGap (l : List Node) (i : Nat) : List Node :=
  match l[i]?, l[i - 6]? with
  | some x, some y => if lessNode x y then listSwap l (i - 6) i else l
  | _, _ => l

/-- The gap-6 pass driver: indices `i, i+1, ...` for `fuel` steps. -/
def gapSteps : List Node → Nat → Nat → List Node
  | l, _, 0 => l
  | l, i, fuel + 1 => gapSteps (cmpSwapGap l i) (i + 1) fuel

/-- The full gap-6 Shell pass `for i := a+6; i < b; i++`. -/
def shellPass (l : List Node) : List Node :=
  gapSteps l 6 (l.length - 6)

/-- `sort.Sort(byPriority(nodes))`: Shell pass with gap 6, then insertion
sort (the exact stdlib routine for slices of at most 12 elements; larger
slices recurse into it). -/
def goSort (l : List Node) : List Node :=
  insertionSortGo (shellPass l)

/-! ### Helpers (`isAlphaNumeric`) -/

/-- `isAlphaNumeric` from the helpers file: every rune of the string is an
ASCII digit, ASCII letter, `_`, `-` or `.` (the Go loop sets the flag to
false and breaks at the first offending rune, which is `List.all`). -/
def isAlphaNumeric (s : String) : Bool :=
  s.data.all fun b =>
    ('0' ≤ b && b ≤ '9') || ('a' ≤ b && b ≤ 'z') || ('A' ≤ b && b ≤ 'Z') ||
      b == '_' || b == '-' || b == '.'

/-! ### The node inventory (node.go)

Go's `records map[string]map[uint64]Node` is modelled as a flat list of
nodes with `(host, port)` as key; the list order is the insertion-order
enumeration (Go map iteration order is unspecified, see the file header).
The `update` channel is modelled as the list of `nodeJob`s a call emits, and
`updateRecords` as the pure transaction that folds those jobs into the
records (the worker/queue side effects of `updateRecords` are the queue
control plane, modelled separately below). -/

/-- `nodeJob` from node.go (Go zero values as defaults). -/
structure NodeJob where
  isDelete : Bool := false
  isUpdate : Bool := false
  done : Bool := false
  record : Node := ⟨"", 0, 0, false, false⟩
deriving DecidableEq, Repr

/-- Key equality on the `(host, port)` pair — the identity of a record in
the two-level map. -/
def sameKey (a b : Node) : Bool := a.host == b.host && a.port == b.port

/-- `records[host][port] = n` (map upsert): replace the record at the key if
present, otherwise add it. -/
def recUpdate (recs : List Node) (n : Node) : List Node :=
  if recs.any (fun r => sameKey r n) then
    recs.map fun r => if sameKey r n then n else r
  else recs ++ [n]

/-- `delete(records[host], port)` (and dropping an emptied host submap,
which the flat model does automatically). -/
def recDelete (recs : List Node) (host : String) (port : Nat) : List Node :=
  recs.filter fun r => !(r.host == host && r.port == port)

/-- `records[host][port]` two-level map lookup. -/
def recGet (recs : List Node) (host : String) (port : Nat) : Option Node :=
  recs.find? fun r => r.host == host && r.port == port

/-- The validation used by `Set`/`SetAll`: the negation of
`node.Host == "" || !isAlphaNumeric(node.Host) || node.Port == 0`. -/
def nodeValid (n : Node) : Bool :=
  !(n.host == "") && isAlphaNumeric n.host && !(n.port == 0)

/-- An `isUpdate` job carrying the record. -/
def updJob (n : Node) : NodeJob := { isUpdate := true, record := n }

/-- An `isDelete` job carrying `Node{Host: host, Port: port}`. -/
def delJob (host : String) (port : Nat) : NodeJob :=
  { isDelete := true, record := ⟨host, port, 0, false, false⟩ }

/-- The end-of-transaction marker `nodeJob{done: true}`. -/
def doneJob : NodeJob := { done := true }

/-- `NodeBundle`, restricted to the state the claims are about: the policy
flags read through the embedded `*Server`, the round-robin ring (a Go nil
pointer is `none`; a built ring is its value list starting at the cursor)
and the records. -/
structure NodeBundle where
  roundRobin : Bool
  byPriority : Bool
  ring : Option (List Node)
  records : List Node
deriving DecidableEq, Repr

namespace NodeBundle

/-- `NodeBundle.Get`: snapshot lookup of one record. -/
def Get (b : NodeBundle) (host : String) (port : Nat) : Option Node :=
  recGet b.records host port

/-- `NodeBundle.GetAll`: snapshot of all records (total is taken before the
sort), sorted with `sort.Sort(byPriority(nodes))` when priority mode is on. -/
def GetAll (b : NodeBundle) : List Node × Nat :=
  (if b.byPriority then goSort b.records else b.records, b.records.length)

/-- `NodeBundle.Set`: validate, then emit the update job and the `done`
marker on the update channel (the emitted jobs are returned). -/
def Set (n : Node) : Bool × List NodeJob :=
  if nodeValid n then (true, [updJob n, doneJob]) else (false, [])

/-- `NodeBundle.SetAll`: validate every node first; on any failure return
false having emitted nothing, otherwise emit one update job per node and
the `done` marker. -/
def SetAll (nodes : List Node) : Bool × List NodeJob :=
  if nodes.all nodeValid then (true, nodes.map updJob ++ [doneJob])
  else (false, [])

/-- `NodeBundle.Delete`: return false if the key is absent, otherwise emit
the delete job and the `done` marker. -/
def Delete (b : NodeBundle) (host : String) (port : Nat) : Bool × List NodeJob :=
  if (recGet b.records host port).isSome then (true, [delJob host port, doneJob])
  else (false, [])

/-- One iteration of `updateRecords`: skip a job with empty host or zero
port, apply the delete then the update flag (the source checks both ifs in
sequence). -/
def applyJob (recs : List Node) (j : NodeJob) : List Node :=
  if j.record.host == "" || j.record.port == 0 then recs
  else
    let recs1 := if j.isDelete then recDelete recs j.record.host j.record.port else recs
    if j.isUpdate then recUpdate recs1 j.record else recs1

/-- `updateRecords`: consume jobs until the `done` marker, folding each into
the records (the records mutation of a transaction; queue/worker effects are
modelled by the queue control plane below). -/
def updateRecords (recs : List Node) : List NodeJob → List Node
  | [] => recs
  | j :: rest => if j.done then recs else updateRecords (applyJob recs j) rest

/-- `NodeBundle.InitRing`: rebuild the ring from the current snapshot only
when round-robin mode is on and more than one node exists; otherwise the
ring is left untouched.  Filling `ring.New(len(nodes))` and stepping `Next`
once per node leaves the cursor back at the first inserted node, so the
built ring is the snapshot list with the cursor at its head. -/
def InitRing (b : NodeBundle) : NodeBundle :=
  let nodes := (GetAll b).1
  let total := (GetAll b).2
  if b.roundRobin && total > 1 then { b with ring := some nodes } else b

/-- `NodeBundle.CurrentFromRing`: `bundle.ring.Value.(Node)`.  On a nil ring
pointer the field access panics, modelled as `none`; on a built ring the
value is a `Node`, so the comma-ok assertion yields `(node, true)`. -/
def CurrentFromRing (b : NodeBundle) : Option (Node × Bool) :=
  match b.ring with
  | none => none
  | some [] => none
  | some (n :: _) => some (n, true)

/-- `NodeBundle.TwistRing`: `bundle.ring = bundle.ring.Next()`.  `Next` on a
nil ring pointer dereferences `r.next` and panics, modelled as `none`;
otherwise the cursor advances (rotate the value list by one). -/
def TwistRing (b : NodeBundle) : Option NodeBundle :=
  match b.ring with
  | none => none
  | some [] => none
  | some (n :: rest) => some { b with ring := some (rest ++ [n]) }

/-- `container/ring.Len()` as called by the read path: it is nil-safe and
returns 0 on a nil ring pointer. -/
def ringLen (b : NodeBundle) : Nat :=
  match b.ring with
  | none => 0
  | some l => l.length

end NodeBundle

/-- The coordinator's `nodeJobSignal` handling (`jobController`): run the
update transaction, then `InitRing`. -/
def jobController (b : NodeBundle) (jobs : List NodeJob) : NodeBundle :=
  NodeBundle.InitRing { b with records := NodeBundle.updateRecords b.records jobs }

/-! ### The dispatcher read path (`Server.processReceive`)

The external HTTP world is a pair of oracles: `healthy` is the result of
`checkNode` per target host, `transportOk` whether `RoundTrip` returns a
non-error response.  A Go panic is `none`. -/

/-- `fmt.Sprintf("%s:%d", node.Host, node.Port)`. -/
def hostPort (n : Node) : String := n.host ++ ":" ++ toString n.port

/-- Outcome of a read dispatch: the host whose response is returned, or the
`"no one of the nodes is active"` error. -/
inductive ReadResult
  | response (host : String)
  | noActive
deriving DecidableEq, Repr

/-- The round-robin walk of `processReceive`: at most `ring.Len()`
iterations; an active, non-maintenance cursor node is targeted, the cursor
advanced, and the node tried (health probe then transport); inactive or
maintenance nodes just advance the cursor.  Transport errors continue the
walk. -/
def ringWalk (healthy transportOk : String → Bool) :
    Nat → NodeBundle → Option (ReadResult × NodeBundle)
  | 0, b => some (.noActive, b)
  | fuel + 1, b =>
    match NodeBundle.CurrentFromRing b with
    | none => none
    | some (node, ok) =>
      if ok && node.active && !node.maintenance then
        match NodeBundle.TwistRing b with
        | none => none
        | some b' =>
          if healthy (hostPort node) then
            if transportOk (hostPort node) then some (.response (hostPort node), b')
            else ringWalk healthy transportOk fuel b'
          else ringWalk healthy transportOk fuel b'
      else
        match NodeBundle.TwistRing b with
        | none => none
        | some b' => ringWalk healthy transportOk fuel b'

/-- The snapshot loop of the non-round-robin branch: try each active,
non-maintenance node in order with the health-probe-then-dispatch step. -/
def snapshotTry (healthy transportOk : String → Bool) : List Node → ReadResult
  | [] => .noActive
  | n :: rest =>
    if n.active && !n.maintenance then
      if healthy (hostPort n) then
        if transportOk (hostPort n) then .response (hostPort n)
        else snapshotTry healthy transportOk rest
      else snapshotTry healthy transportOk rest
    else snapshotTry healthy transportOk rest

/-- The non-round-robin branch of `processReceive`: snapshot via `GetAll`,
sort once more when priority mode is on (the source sorts a second time),
then try nodes in order. -/
def snapshotPath (b : NodeBundle) (healthy transportOk : String → Bool) : ReadResult :=
  let nodes0 := (NodeBundle.GetAll b).1
  let total := (NodeBundle.GetAll b).2
  if total > 0 then
    snapshotTry healthy transportOk (if b.byPriority then goSort nodes0 else nodes0)
  else .noActive

/-- `Server.processReceive`: the ring walk when round-robin mode is on
(bounded by the nil-safe `ring.Len()`), the snapshot path otherwise. -/
def processReceive (b : NodeBundle) (healthy transportOk : String → Bool) :
    Option (ReadResult × NodeBundle) :=
  if b.roundRobin then ringWalk healthy transportOk (NodeBundle.ringLen b) b
  else some (snapshotPath b healthy transportOk, b)

/-! ### The dispatcher write path (`Server.processUpdate`) and the
sibling `done` race of `Server.doUpdate` -/

/-- What `processUpdate` builds for a non-empty snapshot: the capacities of
the shared `answer` and `done` channels and the hosts whose queues receive
a sibling job. -/
structure Fanout where
  answerCap : Nat
  doneCap : Nat
  enqueuedHosts : List String
deriving DecidableEq, Repr

/-- `Server.processUpdate` channel setup: with a non-empty snapshot it
creates `answer := make(chan *http.Response, total)` and
`done := make(chan struct{}, total)` and enqueues one sibling job per
active node; with an empty snapshot it fails (`none`). -/
def processUpdate (nodes : List Node) : Option Fanout :=
  if nodes.length > 0 then
    some { answerCap := nodes.length
           doneCap := nodes.length
           enqueuedHosts := (nodes.filter (fun n => n.active)).map hostPort }
  else none

/-- The completion step of one sibling in `doUpdate` after a successful
dispatch: `if len(job.done) == 0 { done <- {}; answer <- response } else
{ response.Body.Close() }`.  Returns the new latch length and whether this
sibling published. -/
def siblingFinish (latchLen : Nat) : Nat × Bool :=
  if latchLen == 0 then (latchLen + 1, true) else (latchLen, false)

/-- Serialised execution of `k` sibling completions against the shared
latch: returns how many published an answer and how many closed their
response body. -/
def runSiblings : Nat → Nat → Nat × Nat
  | _, 0 => (0, 0)
  | latch, k + 1 =>
    let step := siblingFinish latch
    let rest := runSiblings step.1 k
    if step.2 then (rest.1 + 1, rest.2) else (rest.1, rest.2 + 1)

/-! ### The worker's `doUpdate` health-gated wait (`Server.doUpdate`) -/

/-- `doJobTask` from queue.go (`iota` = 0). -/
def doJobTask : Nat := 0

/-- The queue state `doUpdate` touches: pending jobs, the task channel
(tokens) and the count of liveness responses sent. -/
structure QState where
  jobs : List Nat
  task : List Nat
  responses : Nat
deriving DecidableEq, Repr

/-- What arrives while `doUpdate` waits out a failed probe: the retry
timer, a `quit` signal, or an `ask` probe. -/
inductive WaitEvent
  | timerFired
  | quitSignal
  | askSignal
deriving DecidableEq, Repr

/-- Outcome of the probe-retry loop at the head of `doUpdate`.  Each trace
entry is the result of one `checkNode` call and, when it failed, the select
arm that fired. -/
inductive ProbeOutcome
  | proceed (q : QState)
  | quitReturn (q : QState)
  | outOfTrace
deriving DecidableEq, Repr

/-- The `for { if checkNode ... }` loop of `doUpdate`: break on a healthy
probe; on failure select the timer (retry), `quit` (push `doJobTask` back
onto the task channel and return) or `ask` (reply and keep waiting). -/
def probeLoop : List (Bool × WaitEvent) → QState → ProbeOutcome
  | [], _ => .outOfTrace
  | (healthyNow, ev) :: rest, q =>
    if healthyNow then .proceed q
    else
      match ev with
      | .timerFired => probeLoop rest q
      | .quitSignal => .quitReturn { q with task := q.task ++ [doJobTask] }
      | .askSignal => probeLoop rest { q with responses := q.responses + 1 }

/-- `doUpdate` up to the job consumption: only after the probe loop breaks
does `job := <-q.jobs` run; the quit path returns first.  The second
component is the job consumed, if any. -/
def doUpdate (trace : List (Bool × WaitEvent)) (q : QState) : QState × Option Nat :=
  match probeLoop trace q with
  | .proceed q' => ({ q' with jobs := q'.jobs.tail }, q'.jobs.head?)
  | .quitReturn q' => (q', none)
  | .outOfTrace => (q, none)

/-! ### The health checker (`Server.checkNode`) -/

/-- The probe URL `protocolHTTP + "://" + host + server.check.URL`. -/
def checkNodeURL (host url : String) : String := "http" ++ "://" ++ host ++ url

/-- `Server.checkNode` over oracles: `getResult` is `none` on a GET error,
`some none` when the GET succeeded but reading the body failed, and
`some (some body)` on a full read; `matchesPattern` is
`regexp.MustCompile(pattern).MatchString`. -/
def checkNode (getResult : Option (Option String)) (pattern : String)
    (matchesPattern : String → Bool) : Bool :=
  match getResult with
  | none => false
  | some bodyRead =>
    if pattern == "" then true
    else
      match bodyRead with
      | none => false
      | some body => matchesPattern body

/-! ### The metrics observer (`MetricsBandle.updateMetrics`)

The counters are Go `uint64`: arithmetic wraps modulo `2 ^ 64`. -/

/-- `2 ^ 64`, the modulus of Go's `uint64`. -/
def u64Mod : Nat := 2 ^ 64

/-- Wrapping `uint64` increment. -/
def inc64 (x : Nat) : Nat := (x + 1) % u64Mod

/-- Wrapping `uint64` decrement (`x--` underflows at 0). -/
def dec64 (x : Nat) : Nat := (x + (u64Mod - 1)) % u64Mod

/-- The string constants of the metrics file and server.go. -/
def successMetric : String := "success"

def failureMetric : String := "failure"

def queuedMetric : String := "queued"

def methodGET : String := "GET"

def methodPOST : String := "POST"

def methodPUT : String := "PUT"

def methodDELETE : String := "DELETE"

/-- The nine per-backend counters of `Metrics`. -/
structure Metrics where
  successGet : Nat := 0
  successSet : Nat := 0
  successDelete : Nat := 0
  failureGet : Nat := 0
  failureSet : Nat := 0
  failureDelete : Nat := 0
  queuedGet : Nat := 0
  queuedSet : Nat := 0
  queuedDelete : Nat := 0
deriving DecidableEq, Repr

/-- One `updateMetrics` event for a backend's counters: a `success` or
`failure` completion decrements the corresponding `queued` counter and
increments its own; a `queued` event increments the `queued` counter
(`PUT` and `POST` share the `Set` column). -/
def updateMetrics (m : Metrics) (metricType method : String) : Metrics :=
  if metricType == successMetric then
    if method == methodGET then
      { m with queuedGet := dec64 m.queuedGet, successGet := inc64 m.successGet }
    else if method == methodPUT || method == methodPOST then
      { m with queuedSet := dec64 m.queuedSet, successSet := inc64 m.successSet }
    else if method == methodDELETE then
      { m with queuedDelete := dec64 m.queuedDelete,
               successDelete := inc64 m.successDelete }
    else m
  else if metricType == failureMetric then
    if method == methodGET then
      { m with queuedGet := dec64 m.queuedGet, failureGet := inc64 m.failureGet }
    else if method == methodPUT || method == methodPOST then
      { m with queuedSet := dec64 m.queuedSet, failureSet := inc64 m.failureSet }
    else if method == methodDELETE then
      { m with queuedDelete := dec64 m.queuedDelete,
               failureDelete := inc64 m.failureDelete }
    else m
  else if metricType == queuedMetric then
    if method == methodGET then { m with queuedGet := inc64 m.queuedGet }
    else if method == methodPUT || method == methodPOST then
      { m with queuedSet := inc64 m.queuedSet }
    else if method == methodDELETE then
      { m with queuedDelete := inc64 m.queuedDelete }
    else m
  else m

/-! ### Concrete nodes used in counterexamples and witnesses -/

/-- A zero-priority active node at `a:1`. -/
def nodeZ1 : Node := ⟨"a", 1, 0, true, false⟩

/-- A zero-priority active node at `a:2`. -/
def nodeZ2 : Node := ⟨"a", 2, 0, true, false⟩

/-- A priority-1 active node at key `(a, 1)`. -/
def nodeP1 : Node := ⟨"a", 1, 1, true, false⟩

/-- A priority-2 active node at the same key `(a, 1)`. -/
def nodeP2 : Node := ⟨"a", 1, 2, true, false⟩

/-- A valid active node at `b:3`. -/
def nodeB3 : Node := ⟨"b", 3, 5, true, false⟩

/-- An invalid node: empty host. -/
def nodeBadHost : Node := ⟨"", 4, 0, true, false⟩

/-! ### Proof development -/

theorem lessNode_imp_rankLE {a b : Node} (h : lessNode a b = true) : rankLE a b := by
  unfold lessNode at h
  unfold rankLE prClass prSub
  split_ifs at h <;>
    simp_all only [Bool.and_eq_true, decide_eq_true_eq, ge_iff_le, le_refl] <;>
    split_ifs <;> omega

theorem not_lessNode_imp_rankLE {a b : Node} (h : lessNode a b = false) : rankLE b a := by
  unfold lessNode at h
  unfold rankLE prClass prSub
  split_ifs at h <;>
    simp_all only [Bool.and_eq_true, decide_eq_true_eq, ge_iff_le, Bool.and_eq_false_iff,
      decide_eq_false_iff_not, not_lt, not_le] <;>
    split_ifs <;> omega

theorem rankLE_trans {a b c : Node} (hab : rankLE a b) (hbc : rankLE b c) : rankLE a c := by
  unfold rankLE at *
  omega


theorem bubbleLeft_perm (x : Node) (l : List Node) :
    (bubbleLeft x l).Perm (x :: l) := by
  induction l with
  | nil => exact List.Perm.refl _
  | cons y ys ih =>
    unfold bubbleLeft
    split
    · exact (ih.cons y).trans (List.Perm.swap x y ys)
    · exact List.Perm.refl _

theorem insertLoop_perm (xs : List Node) :
    ∀ acc : List Node, (insertLoop acc xs).Perm (acc ++ xs) := by
  induction xs with
  | nil => intro acc; simp [insertLoop]
  | cons x xs ih =>
    intro acc
    have h1 : (insertLoop (bubbleLeft x acc) xs).Perm (bubbleLeft x acc ++ xs) := ih _
    have h2 : (bubbleLeft x acc ++ xs).Perm ((x :: acc) ++ xs) :=
      (bubbleLeft_perm x acc).append_right xs
    have h3 : ((x :: acc) ++ xs).Perm (acc ++ x :: xs) := by
      simpa using List.perm_middle.symm
    exact (h1.trans h2).trans h3

theorem insertionSortGo_perm (l : List Node) : (insertionSortGo l).Perm l := by
  unfold insertionSortGo
  exact (List.reverse_perm _).trans (by simpa using insertLoop_perm l [])

theorem set_cons_perm (x : Node) :
    ∀ (t : List Node) (k : Nat) (y : Node), t[k]? = some y →
      (y :: t.set k x).Perm (x :: t) := by
  intro t
  induction t with
  | nil => intro k y h; simp at h
  | cons b t' ih =>
    intro k y h
    match k with
    | 0 =>
      simp only [List.getElem?_cons_zero, Option.some.injEq] at h
      rw [h]
      simpa [List.set] using List.Perm.swap x y t'
    | k + 1 =>
      simp only [List.getElem?_cons_succ] at h
      have step : (y :: b :: t'.set k x).Perm (b :: y :: t'.set k x) :=
        List.Perm.swap b y _
      have mid : (b :: y :: t'.set k x).Perm (b :: x :: t') := (ih k y h).cons b
      have fin : (b :: x :: t').Perm (x :: b :: t') := List.Perm.swap x b t'
      simpa [List.set] using (step.trans mid).trans fin

theorem swap_perm :
    ∀ (l : List Node) (j i : Nat) (x y : Node), j < i →
      l[j]? = some x → l[i]? = some y → ((l.set j y).set i x).Perm l := by
  intro l
  induction l with
  | nil => intro j i x y _ hj _; simp at hj
  | cons a t ih =>
    intro j i x y hji hj hi
    match j, i with
    | 0, i + 1 =>
      simp only [List.getElem?_cons_zero, Option.some.injEq] at hj
      simp only [List.getElem?_cons_succ] at hi
      rw [hj]
      simpa [List.set] using set_cons_perm x t i y hi
    | j + 1, i + 1 =>
      simp only [List.getElem?_cons_succ] at hj hi
      have := ih j i x y (by omega) hj hi
      simpa [List.set] using this.cons a

theorem set_self_of_getElem (l : List Node) :
    ∀ (k : Nat) (x : Node), l[k]? = some x → l.set k x = l := by
  induction l with
  | nil => intro k x h; simp at h
  | cons a t ih =>
    intro k x h
    match k with
    | 0 =>
      simp only [List.getElem?_cons_zero, Option.some.injEq] at h
      rw [h]
      simp [List.set]
    | k + 1 =>
      simp only [List.getElem?_cons_succ] at h
      simp [List.set, ih k x h]

theorem listSwap_perm (l : List Node) (j i : Nat) (h : j < i) :
    (listSwap l j i).Perm l := by
  unfold listSwap
  match hj : l[j]?, hi : l[i]? with
  | some x, some y => exact swap_perm l j i x y h hj hi
  | some _, none => exact List.Perm.refl _
  | none, _ => exact List.Perm.refl _

theorem cmpSwapGap_perm (l : List Node) (i : Nat) : (cmpSwapGap l i).Perm l := by
  unfold cmpSwapGap
  match hx : l[i]?, hy : l[i - 6]? with
  | some x, some y =>
    simp only
    split
    · by_cases hlt : i - 6 < i
      · exact listSwap_perm l (i - 6) i hlt
      · have hieq : i - 6 = i := by omega
        rw [hieq] at hy ⊢
        rw [hx] at hy
        simp only [Option.some.injEq] at hy
        subst hy
        simp only [listSwap, hx, List.set_set, set_self_of_getElem l i x hx]
        exact List.Perm.refl _
    · exact List.Perm.refl _
  | some _, none => exact List.Perm.refl _
  | none, _ => exact List.Perm.refl _

theorem gapSteps_perm (fuel : Nat) :
    ∀ (l : List Node) (i : Nat), (gapSteps l i fuel).Perm l := by
  induction fuel with
  | zero => intro l i; exact List.Perm.refl _
  | succ n ih =>
    intro l i
    exact (ih (cmpSwapGap l i) (i + 1)).trans (cmpSwapGap_perm l i)

theorem shellPass_perm (l : List Node) : (shellPass l).Perm l :=
  gapSteps_perm _ l 6

theorem goSort_perm (l : List Node) : (goSort l).Perm l :=
  (insertionSortGo_perm _).trans (shellPass_perm l)


theorem bubbleLeft_sorted {l : List Node} (x : Node)
    (h : l.Pairwise rankGE) :
    (bubbleLeft x l).Pairwise rankGE := by
  induction l with
  | nil => simp [bubbleLeft]
  | cons y ys ih =>
    rw [List.pairwise_cons] at h
    obtain ⟨hy, hys⟩ := h
    unfold bubbleLeft
    split
    · rename_i hless
      rw [List.pairwise_cons]
      refine ⟨?_, ih hys⟩
      intro z hz
      rcases List.mem_cons.mp ((bubbleLeft_perm x ys).mem_iff.mp hz) with hzx | hzys
      · subst hzx
        exact lessNode_imp_rankLE hless
      · exact hy z hzys
    · rename_i hnless
      rw [List.pairwise_cons]
      constructor
      · intro z hz
        rcases List.mem_cons.mp hz with hzy | hzys
        · subst hzy
          exact not_lessNode_imp_rankLE (Bool.of_not_eq_true hnless)
        · exact rankLE_trans (hy z hzys)
            (not_lessNode_imp_rankLE (Bool.of_not_eq_true hnless))
      · rw [List.pairwise_cons]
        exact ⟨hy, hys⟩

theorem insertLoop_sorted (xs : List Node) :
    ∀ acc : List Node, acc.Pairwise rankGE →
      (insertLoop acc xs).Pairwise rankGE := by
  induction xs with
  | nil => intro acc h; exact h
  | cons x xs ih =>
    intro acc h
    exact ih _ (bubbleLeft_sorted x h)

theorem insertionSortGo_sorted (l : List Node) :
    (insertionSortGo l).Pairwise rankLE := by
  unfold insertionSortGo
  rw [List.pairwise_reverse]
  exact insertLoop_sorted l [] List.Pairwise.nil

theorem goSort_sorted (l : List Node) : (goSort l).Pairwise rankLE :=
  insertionSortGo_sorted _

/-! ### Claim C9 -/

/-- C9: `isAlphaNumeric s` returns true if and only if every character of
`s` is an ASCII digit, an ASCII letter, an underscore, a hyphen or a dot
(the language `[0-9A-Za-z_.-]*`). -/
theorem isAlphaNumeric_characterisation (s : String) :
    isAlphaNumeric s = true ↔
      ∀ c ∈ s.data,
        ('0' ≤ c ∧ c ≤ '9') ∨ ('a' ≤ c ∧ c ≤ 'z') ∨ ('A' ≤ c ∧ c ≤ 'Z') ∨
          c = '_' ∨ c = '-' ∨ c = '.' := by
  unfold isAlphaNumeric
  rw [List.all_eq_true]
  constructor
  · intro h c hc
    have := h c hc
    simp only [Bool.or_eq_true, Bool.and_eq_true, decide_eq_true_eq, beq_iff_eq] at this
    tauto
  · intro h c hc
    have := h c hc
    simp only [Bool.or_eq_true, Bool.and_eq_true, decide_eq_true_eq, beq_iff_eq]
    tauto

/-! ### Claim C6 -/

/-- C6: `checkNode` returns true iff the HTTP GET to
`http://<node><check.url>` succeeds and either the pattern is empty or the
body was read successfully and matches the compiled pattern; in every other
case it returns false. -/
theorem checkNode_characterisation (g : Option (Option String)) (p : String)
    (m : String → Bool) :
    (checkNode g p m = true ↔
      ∃ bodyRead, g = some bodyRead ∧
        (p = "" ∨ ∃ body, bodyRead = some body ∧ m body = true)) ∧
    (∀ host url : String, checkNodeURL host url = "http://" ++ host ++ url) := by
  constructor
  · cases g with
    | none => simp [checkNode]
    | some bodyRead =>
      by_cases hp : p = ""
      · simp [checkNode, hp]
      · cases bodyRead with
        | none => simp [checkNode, hp]
        | some body => simp [checkNode, hp]
  · intro host url
    rfl

/-! ### Claim C7 -/

/-- C7: whenever the failed-probe wait of `doUpdate` receives a quit signal,
the `doJobTask` token is pushed back onto the task channel and `doUpdate`
returns without consuming any job from the jobs channel: the pending jobs
are untouched and the task channel has gained the pushed-back token. -/
theorem doUpdate_quit_preserves_job (trace : List (Bool × WaitEvent))
    (q q' : QState) (h : probeLoop trace q = .quitReturn q') :
    q'.jobs = q.jobs ∧ q'.task = q.task ++ [doJobTask] ∧
      doUpdate trace q = (q', none) := by
  induction trace generalizing q with
  | nil => simp [probeLoop] at h
  | cons step rest ih =>
    obtain ⟨healthyNow, ev⟩ := step
    cases healthyNow with
    | true => simp [probeLoop] at h
    | false =>
      cases ev with
      | timerFired =>
        simp only [probeLoop, Bool.false_eq_true, if_false] at h
        obtain ⟨h1, h2, _⟩ := ih q h
        refine ⟨h1, h2, ?_⟩
        simp only [doUpdate, probeLoop, Bool.false_eq_true, if_false, h]
      | quitSignal =>
        simp only [probeLoop, Bool.false_eq_true, if_false] at h
        injection h with h
        subst h
        refine ⟨rfl, rfl, ?_⟩
        simp [doUpdate, probeLoop]
      | askSignal =>
        simp only [probeLoop, Bool.false_eq_true, if_false] at h
        obtain ⟨h1, h2, _⟩ := ih _ h
        refine ⟨h1, h2, ?_⟩
        simp only [doUpdate, probeLoop, Bool.false_eq_true, if_false, h]

/-- Witness for C7 at a concrete queue: one pending job `7`, empty task
channel, the probe fails once and `quit` arrives. -/
theorem doUpdate_quit_preserves_job_witness :
    (⟨[7], [doJobTask], 0⟩ : QState).jobs = (⟨[7], [], 0⟩ : QState).jobs ∧
      (⟨[7], [doJobTask], 0⟩ : QState).task =
        (⟨[7], [], 0⟩ : QState).task ++ [doJobTask] ∧
      doUpdate [(false, .quitSignal)] ⟨[7], [], 0⟩ = (⟨[7], [doJobTask], 0⟩, none) :=
  doUpdate_quit_preserves_job [(false, .quitSignal)] ⟨[7], [], 0⟩
    ⟨[7], [doJobTask], 0⟩ (by decide)

/-! ### Claim C4 -/

/-- C4: a batch containing any node with an empty host, a non-alphanumeric
host, or a zero port makes `SetAll` return false with no mutation enqueued,
leaving the records unchanged; `Set` on such a node likewise returns false
and leaves the records unchanged. -/
theorem setAll_invalid_rejected (nodes : List Node) (n : Node) (recs : List Node)
    (hbatch : ∃ x ∈ nodes, x.host = "" ∨ isAlphaNumeric x.host = false ∨ x.port = 0)
    (hn : n.host = "" ∨ isAlphaNumeric n.host = false ∨ n.port = 0) :
    NodeBundle.SetAll nodes = (false, []) ∧
      NodeBundle.updateRecords recs (NodeBundle.SetAll nodes).2 = recs ∧
      NodeBundle.Set n = (false, []) ∧
      NodeBundle.updateRecords recs (NodeBundle.Set n).2 = recs := by
  have hvalid : ∀ x : Node,
      x.host = "" ∨ isAlphaNumeric x.host = false ∨ x.port = 0 →
      nodeValid x = false := by
    intro x hx
    unfold nodeValid
    rcases hx with h | h | h <;> simp [h]
  have hall : nodes.all nodeValid = false := by
    obtain ⟨x, hxmem, hx⟩ := hbatch
    rw [Bool.eq_false_iff]
    intro hcontra
    rw [List.all_eq_true] at hcontra
    have := hcontra x hxmem
    rw [hvalid x hx] at this
    cases this
  have h1 : NodeBundle.SetAll nodes = (false, []) := by
    unfold NodeBundle.SetAll
    rw [hall]
    simp
  have h2 : NodeBundle.Set n = (false, []) := by
    unfold NodeBundle.Set
    rw [hvalid n hn]
    simp
  refine ⟨h1, ?_, h2, ?_⟩
  · rw [h1]
    rfl
  · rw [h2]
    rfl

/-- Witness for C4: the batch `[nodeZ1, nodeBadHost]` holds a node with an
empty host, as does the single node `nodeBadHost`; the records `[nodeB3]`
are untouched. -/
theorem setAll_invalid_rejected_witness :
    (∃ x ∈ [nodeZ1, nodeBadHost],
        x.host = "" ∨ isAlphaNumeric x.host = false ∨ x.port = 0) ∧
      (nodeBadHost.host = "" ∨ isAlphaNumeric nodeBadHost.host = false ∨
        nodeBadHost.port = 0) ∧
      (NodeBundle.SetAll [nodeZ1, nodeBadHost] = (false, []) ∧
        NodeBundle.updateRecords [nodeB3]
            (NodeBundle.SetAll [nodeZ1, nodeBadHost]).2 = [nodeB3] ∧
        NodeBundle.Set nodeBadHost = (false, []) ∧
        NodeBundle.updateRecords [nodeB3] (NodeBundle.Set nodeBadHost).2 = [nodeB3]) :=
  ⟨⟨nodeBadHost, by decide, by decide⟩, by decide,
    setAll_invalid_rejected [nodeZ1, nodeBadHost] nodeBadHost [nodeB3]
      ⟨nodeBadHost, by decide, by decide⟩ (by decide)⟩

/-! ### Claim C1 -/

/-- C1 counterexample: an inventory under priority mode holding two
zero-priority nodes, enumerated in insertion order `[nodeZ1, nodeZ2]`.
The claim's tie-break (insertion order) demands `GetAll` return
`[nodeZ1, nodeZ2]`; the code returns `[nodeZ2, nodeZ1]`, because
`byPriority.Less` holds in both directions for two zero priorities and the
stdlib insertion sort therefore swaps the tied pair. -/
theorem getAll_ties_reversed_counterexample :
    (NodeBundle.GetAll ⟨false, true, none, [nodeZ1, nodeZ2]⟩).1
        = [nodeZ2, nodeZ1] ∧
      ([nodeZ2, nodeZ1] : List Node) ≠ [nodeZ1, nodeZ2] := by
  constructor
  · decide
  · decide

/-- C1 (amended): under priority mode `GetAll` returns a permutation of the
stored nodes ordered by the priority total order on classes (positives
ascending, then zeros, then negatives descending toward zero), and the
returned total is the number of stored nodes — but ties between equal
priorities come in no specified order (the sort is not stable), not in
insertion order. -/
theorem getAll_sorted_permutation (b : NodeBundle) (h : b.byPriority = true) :
    (NodeBundle.GetAll b).1.Perm b.records ∧
      (NodeBundle.GetAll b).1.Pairwise rankLE ∧
      (NodeBundle.GetAll b).2 = b.records.length := by
  unfold NodeBundle.GetAll
  simp only [h, if_true]
  exact ⟨goSort_perm _, goSort_sorted _, trivial⟩

/-- Witness for C1 (amended) at a three-node inventory with a tie. -/
theorem getAll_sorted_permutation_witness :
    (⟨false, true, none, [nodeZ1, nodeB3, nodeZ2]⟩ : NodeBundle).byPriority = true ∧
      ((NodeBundle.GetAll ⟨false, true, none, [nodeZ1, nodeB3, nodeZ2]⟩).1.Perm
          [nodeZ1, nodeB3, nodeZ2] ∧
        (NodeBundle.GetAll ⟨false, true, none, [nodeZ1, nodeB3, nodeZ2]⟩).1.Pairwise
          rankLE ∧
        (NodeBundle.GetAll ⟨false, true, none, [nodeZ1, nodeB3, nodeZ2]⟩).2
          = ([nodeZ1, nodeB3, nodeZ2] : List Node).length) :=
  ⟨rfl, getAll_sorted_permutation ⟨false, true, none, [nodeZ1, nodeB3, nodeZ2]⟩ rfl⟩

/-! ### Claim C2 -/

/-- C2 counterexample: with a two-node snapshot the dispatcher creates the
`done` latch with capacity 2 (`make(chan struct{}, total)`), not capacity
one as the claim states. -/
theorem processUpdate_done_capacity_counterexample :
    processUpdate [nodeZ1, nodeZ2]
        = some ⟨2, 2, [hostPort nodeZ1, hostPort nodeZ2]⟩ ∧
      (2 : Nat) ≠ 1 := by
  constructor
  · decide
  · decide

theorem runSiblings_full_latch (k : Nat) :
    ∀ latch : Nat, 0 < latch → runSiblings latch k = (0, k) := by
  induction k with
  | zero => intro latch _; rfl
  | succ n ih =>
    intro latch hl
    have hne : (latch == 0) = false := by
      simp only [beq_eq_false_iff_ne, ne_eq]
      omega
    simp only [runSiblings, siblingFinish, hne, Bool.false_eq_true, if_false]
    rw [ih latch hl]

theorem runSiblings_empty_latch (k : Nat) :
    (runSiblings 0 k).1 ≤ 1 ∧ (runSiblings 0 k).1 + (runSiblings 0 k).2 = k := by
  cases k with
  | zero => exact ⟨by decide, rfl⟩
  | succ n =>
    have hfull := runSiblings_full_latch n 1 (by omega)
    constructor
    · simp [runSiblings, siblingFinish, hfull]
    · simp [runSiblings, siblingFinish, hfull]
      omega

/-- C2 (amended): the dispatcher creates the shared `done` latch (and the
`answer` sink) with capacity equal to the snapshot total — not one — and
enqueues one sibling job per active node; under a serialised execution of
the sibling completions against the latch, at most one sibling publishes a
response and every other completing sibling closes its response body. -/
theorem processUpdate_fanout_first_wins (nodes : List Node) (k : Nat)
    (h : 0 < nodes.length) :
    processUpdate nodes = some ⟨nodes.length, nodes.length,
        (nodes.filter (fun n => n.active)).map hostPort⟩ ∧
      (runSiblings 0 k).1 ≤ 1 ∧
      (runSiblings 0 k).1 + (runSiblings 0 k).2 = k := by
  have h1 : processUpdate nodes = some ⟨nodes.length, nodes.length,
      (nodes.filter (fun n => n.active)).map hostPort⟩ := by
    unfold processUpdate
    simp only [h, if_true]
  exact ⟨h1, (runSiblings_empty_latch k).1, (runSiblings_empty_latch k).2⟩

/-- Witness for C2 (amended) with two nodes and three sibling completions. -/
theorem processUpdate_fanout_first_wins_witness :
    0 < ([nodeZ1, nodeZ2] : List Node).length ∧
      (processUpdate [nodeZ1, nodeZ2]
          = some ⟨([nodeZ1, nodeZ2] : List Node).length,
              ([nodeZ1, nodeZ2] : List Node).length,
              (([nodeZ1, nodeZ2] : List Node).filter (fun n => n.active)).map
                hostPort⟩ ∧
        (runSiblings 0 3).1 ≤ 1 ∧
        (runSiblings 0 3).1 + (runSiblings 0 3).2 = 3) :=
  ⟨by decide, processUpdate_fanout_first_wins [nodeZ1, nodeZ2] 3 (by decide)⟩

/-! ### Claim C8 -/

/-- C8 counterexample: from a state with `Queued.Get = 5`, a
`success`/`GET` completion event leaves `Queued.Get = 4`: the event
decreased a counter, so the queued counters are not monotonically
increasing. -/
theorem updateMetrics_queued_decreases_counterexample :
    (updateMetrics ⟨0, 0, 0, 0, 0, 0, 5, 0, 0⟩ successMetric methodGET).queuedGet
        = 4 ∧ (4 : Nat) < 5 := by
  constructor
  · decide
  · decide

/-- C8 (amended): each `updateMetrics` event adjusts exactly the documented
counters with wrapping 64-bit arithmetic: a `queued` event increments the
method's queued counter, while a `success` or `failure` completion
increments its own counter and *decrements* the method's queued counter —
so the success/failure counters only ever step upward (mod 2^64) but the
queued counters decrease on every completion event. -/
theorem updateMetrics_equations (m : Metrics) :
    updateMetrics m successMetric methodGET
        = { m with queuedGet := dec64 m.queuedGet,
                   successGet := inc64 m.successGet } ∧
      updateMetrics m successMetric methodPUT
        = { m with queuedSet := dec64 m.queuedSet,
                   successSet := inc64 m.successSet } ∧
      updateMetrics m successMetric methodPOST
        = { m with queuedSet := dec64 m.queuedSet,
                   successSet := inc64 m.successSet } ∧
      updateMetrics m successMetric methodDELETE
        = { m with queuedDelete := dec64 m.queuedDelete,
                   successDelete := inc64 m.successDelete } ∧
      updateMetrics m failureMetric methodGET
        = { m with queuedGet := dec64 m.queuedGet,
                   failureGet := inc64 m.failureGet } ∧
      updateMetrics m failureMetric methodPUT
        = { m with queuedSet := dec64 m.queuedSet,
                   failureSet := inc64 m.failureSet } ∧
      updateMetrics m failureMetric methodPOST
        = { m with queuedSet := dec64 m.queuedSet,
                   failureSet := inc64 m.failureSet } ∧
      updateMetrics m failureMetric methodDELETE
        = { m with queuedDelete := dec64 m.queuedDelete,
                   failureDelete := inc64 m.failureDelete } ∧
      updateMetrics m queuedMetric methodGET
        = { m with queuedGet := inc64 m.queuedGet } ∧
      updateMetrics m queuedMetric methodPUT
        = { m with queuedSet := inc64 m.queuedSet } ∧
      updateMetrics m queuedMetric methodPOST
        = { m with queuedSet := inc64 m.queuedSet } ∧
      updateMetrics m queuedMetric methodDELETE
        = { m with queuedDelete := inc64 m.queuedDelete } :=
  ⟨rfl, rfl, rfl, rfl, rfl, rfl, rfl, rfl, rfl, rfl, rfl, rfl⟩

/-! ### Claim C3 -/

/-- C3 counterexample: a reachable state in which the inventory holds one
node yet the ring is not empty after `InitRing`.  Starting empty with
round-robin on, a transaction stores `nodeZ1, nodeZ2` (the ring is built
with both); a second transaction deletes `nodeZ1`.  `InitRing` then skips
its rebuild branch (fewer than two nodes) and leaves the stale two-entry
ring in place — the claim demands an empty ring. -/
theorem initRing_stale_ring_counterexample :
    jobController (jobController ⟨true, false, none, []⟩
          [updJob nodeZ1, updJob nodeZ2, doneJob])
        [delJob "a" 1, doneJob]
      = ⟨true, false, some [nodeZ1, nodeZ2], [nodeZ2]⟩ ∧
    ¬((some [nodeZ1, nodeZ2] : Option (List Node)) = none ∨
        (some [nodeZ1, nodeZ2] : Option (List Node)) = some []) := by
  constructor
  · decide
  · decide

/-- C3 (amended): with fewer than two stored nodes `InitRing` leaves the
bundle unchanged — the ring is not cleared, so it is empty only if it was
never built; read dispatch uses the snapshot-sort path exactly when
round-robin mode is off; and when round-robin mode is on with a never-built
(nil) ring, the read path performs zero ring iterations and returns the
no-active-node error without consulting the snapshot. -/
theorem initRing_small_inventory (b : NodeBundle) (h : b.records.length < 2) :
    NodeBundle.InitRing b = b ∧
      (b.roundRobin = false → ∀ healthy transportOk : String → Bool,
        processReceive b healthy transportOk
          = some (snapshotPath b healthy transportOk, b)) ∧
      (b.roundRobin = true → b.ring = none → ∀ healthy transportOk : String → Bool,
        processReceive b healthy transportOk = some (.noActive, b)) := by
  refine ⟨?_, ?_, ?_⟩
  · unfold NodeBundle.InitRing NodeBundle.GetAll
    have hgt : decide (b.records.length > 1) = false := by
      simp only [decide_eq_false_iff_not]
      omega
    simp [hgt]
  · intro hr healthy transportOk
    simp [processReceive, hr]
  · intro hr hring healthy transportOk
    simp [processReceive, hr, NodeBundle.ringLen, hring, ringWalk]

/-- Witness for C3 (amended) at a one-node inventory with round-robin off. -/
theorem initRing_small_inventory_witness :
    (⟨false, false, none, [nodeB3]⟩ : NodeBundle).records.length < 2 ∧
      (NodeBundle.InitRing ⟨false, false, none, [nodeB3]⟩
          = ⟨false, false, none, [nodeB3]⟩ ∧
        ((⟨false, false, none, [nodeB3]⟩ : NodeBundle).roundRobin = false →
          ∀ healthy transportOk : String → Bool,
            processReceive ⟨false, false, none, [nodeB3]⟩ healthy transportOk
              = some (snapshotPath ⟨false, false, none, [nodeB3]⟩ healthy transportOk,
                  ⟨false, false, none, [nodeB3]⟩)) ∧
        ((⟨false, false, none, [nodeB3]⟩ : NodeBundle).roundRobin = true →
          (⟨false, false, none, [nodeB3]⟩ : NodeBundle).ring = none →
          ∀ healthy transportOk : String → Bool,
            processReceive ⟨false, false, none, [nodeB3]⟩ healthy transportOk
              = some (.noActive, ⟨false, false, none, [nodeB3]⟩))) :=
  ⟨by decide, initRing_small_inventory ⟨false, false, none, [nodeB3]⟩ (by decide)⟩

/-! ### Claim C10 -/

/-- C10 counterexample: with round-robin on and a never-built (nil) ring,
the read path does not panic (a panic is `none` in the model):
`container/ring.Len()` is nil-safe and returns 0, so the walk makes zero
iterations and the no-active-node error is returned. -/
theorem readPath_nil_ring_counterexample :
    processReceive ⟨true, false, none, [nodeB3]⟩ (fun _ => true) (fun _ => true)
        = some (.noActive, ⟨true, false, none, [nodeB3]⟩) ∧
      some (ReadResult.noActive, (⟨true, false, none, [nodeB3]⟩ : NodeBundle))
        ≠ (none : Option (ReadResult × NodeBundle)) := by
  constructor
  · rfl
  · simp

/-- C10 (amended): on a never-built (nil) ring, `CurrentFromRing` and
`TwistRing` dereference the nil pointer and panic — `CurrentFromRing` never
returns a `(Node, false)` result there — but the round-robin read path does
not panic: `ring.Len()` is nil-safe and yields 0, so the walk runs zero
iterations and returns the no-active-node error. -/
theorem nil_ring_behaviour (b : NodeBundle) (h : b.ring = none) :
    NodeBundle.CurrentFromRing b = none ∧
      NodeBundle.TwistRing b = none ∧
      NodeBundle.ringLen b = 0 ∧
      (b.roundRobin = true → ∀ healthy transportOk : String → Bool,
        processReceive b healthy transportOk = some (.noActive, b)) := by
  refine ⟨?_, ?_, ?_, ?_⟩
  · unfold NodeBundle.CurrentFromRing
    rw [h]
  · unfold NodeBundle.TwistRing
    rw [h]
  · unfold NodeBundle.ringLen
    rw [h]
  · intro hr healthy transportOk
    simp [processReceive, hr, NodeBundle.ringLen, h, ringWalk]

/-- Witness for C10 (amended) at a concrete nil-ring bundle. -/
theorem nil_ring_behaviour_witness :
    (⟨true, true, none, []⟩ : NodeBundle).ring = none ∧
      (NodeBundle.CurrentFromRing ⟨true, true, none, []⟩ = none ∧
        NodeBundle.TwistRing ⟨true, true, none, []⟩ = none ∧
        NodeBundle.ringLen ⟨true, true, none, []⟩ = 0 ∧
        ((⟨true, true, none, []⟩ : NodeBundle).roundRobin = true →
          ∀ healthy transportOk : String → Bool,
            processReceive ⟨true, true, none, []⟩ healthy transportOk
              = some (.noActive, ⟨true, true, none, []⟩))) :=
  ⟨rfl, nil_ring_behaviour ⟨true, true, none, []⟩ rfl⟩

/-! ### Claim C5 -/

theorem find?_map_update (n : Node) :
    ∀ recs : List Node, recs.any (fun r => sameKey r n) = true →
      ((recs.map fun r => if sameKey r n then n else r).find?
          (fun r => r.host == n.host && r.port == n.port)) = some n := by
  intro recs
  induction recs with
  | nil => intro h; simp at h
  | cons r rest ih =>
    intro h
    simp only [List.any_cons, Bool.or_eq_true] at h
    by_cases hr : sameKey r n = true
    · have hn : (n.host == n.host && n.port == n.port) = true := by simp
      simp only [List.map_cons, if_pos hr, List.find?, hn]
    · have hr' : sameKey r n = false := Bool.eq_false_iff.mpr hr
      have hrest : rest.any (fun r => sameKey r n) = true := by
        rcases h with h | h
        · rw [hr'] at h
          cases h
        · exact h
      have hpr : (r.host == n.host && r.port == n.port) = false := by
        simpa [sameKey] using hr'
      simp only [List.map_cons, if_neg hr, List.find?, hpr]
      exact ih hrest

theorem find?_append_new (n : Node) :
    ∀ recs : List Node, recs.any (fun r => sameKey r n) = false →
      ((recs ++ [n]).find? fun r => r.host == n.host && r.port == n.port)
        = some n := by
  intro recs
  induction recs with
  | nil =>
    intro _
    have hn : (n.host == n.host && n.port == n.port) = true := by simp
    simp [List.find?, hn]
  | cons r rest ih =>
    intro h
    simp only [List.any_cons, Bool.or_eq_false_iff] at h
    obtain ⟨hr, hrest⟩ := h
    have hpr : (r.host == n.host && r.port == n.port) = false := by
      simpa [sameKey] using hr
    simp only [List.cons_append, List.find?, hpr]
    exact ih hrest

theorem recGet_recUpdate (recs : List Node) (n : Node) :
    recGet (recUpdate recs n) n.host n.port = some n := by
  unfold recGet recUpdate
  by_cases h : recs.any (fun r => sameKey r n) = true
  · rw [if_pos h]
    exact find?_map_update n recs h
  · rw [if_neg h]
    exact find?_append_new n recs (Bool.eq_false_iff.mpr h)

theorem recGet_recDelete (recs : List Node) (host : String) (port : Nat) :
    recGet (recDelete recs host port) host port = none := by
  unfold recGet recDelete
  rw [List.find?_eq_none]
  intro x hx
  have hmem := (List.mem_filter.mp hx).2
  simp only [Bool.not_eq_true'] at hmem
  simp [hmem]

theorem nodeValid_fields {n : Node} (h : nodeValid n = true) :
    (n.host == "") = false ∧ (n.port == 0) = false := by
  unfold nodeValid at h
  simp only [Bool.and_eq_true, Bool.not_eq_true'] at h
  exact ⟨h.1.1, h.2⟩

theorem updateRecords_set (recs : List Node) (n : Node) (h : nodeValid n = true) :
    NodeBundle.updateRecords recs (NodeBundle.Set n).2 = recUpdate recs n := by
  obtain ⟨hh, hp⟩ := nodeValid_fields h
  unfold NodeBundle.Set
  rw [if_pos h]
  simp [NodeBundle.updateRecords, NodeBundle.applyJob, updJob, doneJob, hh, hp]

theorem updateRecords_delete (recs : List Node) (host : String) (port : Nat)
    (hh : (host == "") = false) (hp : (port == 0) = false) :
    NodeBundle.updateRecords recs [delJob host port, doneJob]
      = recDelete recs host port := by
  simp [NodeBundle.updateRecords, NodeBundle.applyJob, delJob, doneJob, hh, hp]

theorem getAll_sorted_perm_aux (recs : List Node) :
    (NodeBundle.GetAll ⟨false, true, none, recs⟩).1.Perm recs ∧
      (NodeBundle.GetAll ⟨false, true, none, recs⟩).1.Pairwise rankLE :=
  ⟨goSort_perm recs, goSort_sorted recs⟩

/-- C5 counterexample: `xs = [nodeP1, nodeP2]` holds two valid nodes with
the same `(host, port)` key and priorities 1, 2, so `sort(xs)` is
`[nodeP1, nodeP2]`; but the records map collapses the duplicate key (last
write wins) and `SetAll(xs)` followed by `GetAll()` under priority mode
returns the single node `[nodeP2]`, not `sort(xs)` — for any enumeration
order, since even the element counts differ. -/
theorem setAll_getAll_roundtrip_counterexample :
    (NodeBundle.SetAll [nodeP1, nodeP2]).1 = true ∧
      (NodeBundle.GetAll ⟨false, true, none,
          NodeBundle.updateRecords [] (NodeBundle.SetAll [nodeP1, nodeP2]).2⟩).1
        = [nodeP2] ∧
      ([nodeP2] : List Node) ≠ [nodeP1, nodeP2] := by
  refine ⟨by decide, by decide, by decide⟩

/-- C5 (amended): after `Set(n)` and its transaction, `Get(n.host, n.port)`
returns `n`; a subsequent `Delete(n.host, n.port)` succeeds and after its
transaction `Get` returns not-found; and `SetAll(xs)` followed by `GetAll()`
under priority mode returns a priority-class-sorted permutation of the
post-transaction records (one record per `(host, port)` key, last write
wins) — which is `sort(xs)` only when the keys of `xs` are distinct and up
to the order of priority ties. -/
theorem roundtrip_laws (n : Node) (xs : List Node) (recs : List Node)
    (hn : nodeValid n = true) (hxs : xs.all nodeValid = true) :
    (NodeBundle.Set n).1 = true ∧
      NodeBundle.Get
          ⟨false, true, none, NodeBundle.updateRecords recs (NodeBundle.Set n).2⟩
          n.host n.port = some n ∧
      ((NodeBundle.Delete
            ⟨false, true, none, NodeBundle.updateRecords recs (NodeBundle.Set n).2⟩
            n.host n.port).1 = true ∧
        NodeBundle.Get
            ⟨false, true, none,
              NodeBundle.updateRecords
                (NodeBundle.updateRecords recs (NodeBundle.Set n).2)
                (NodeBundle.Delete
                  ⟨false, true, none,
                    NodeBundle.updateRecords recs (NodeBundle.Set n).2⟩
                  n.host n.port).2⟩
            n.host n.port = none) ∧
      ((NodeBundle.SetAll xs).1 = true ∧
        (NodeBundle.GetAll ⟨false, true, none,
            NodeBundle.updateRecords recs (NodeBundle.SetAll xs).2⟩).1.Perm
          (NodeBundle.updateRecords recs (NodeBundle.SetAll xs).2) ∧
        (NodeBundle.GetAll ⟨false, true, none,
            NodeBundle.updateRecords recs (NodeBundle.SetAll xs).2⟩).1.Pairwise
          rankLE) := by
  obtain ⟨hhost, hport⟩ := nodeValid_fields hn
  have hrecs1 : NodeBundle.updateRecords recs (NodeBundle.Set n).2
      = recUpdate recs n := updateRecords_set recs n hn
  have hget1 : recGet (recUpdate recs n) n.host n.port = some n :=
    recGet_recUpdate recs n
  have hdel : NodeBundle.Delete
      ⟨false, true, none, NodeBundle.updateRecords recs (NodeBundle.Set n).2⟩
      n.host n.port = (true, [delJob n.host n.port, doneJob]) := by
    unfold NodeBundle.Delete
    rw [if_pos]
    show (recGet (NodeBundle.updateRecords recs (NodeBundle.Set n).2)
        n.host n.port).isSome = true
    rw [hrecs1, hget1]
    rfl
  refine ⟨?_, ?_, ⟨?_, ?_⟩, ⟨?_, ?_, ?_⟩⟩
  · unfold NodeBundle.Set
    rw [if_pos hn]
  · show recGet (NodeBundle.updateRecords recs (NodeBundle.Set n).2)
        n.host n.port = some n
    rw [hrecs1]
    exact hget1
  · rw [hdel]
  · show recGet (NodeBundle.updateRecords
          (NodeBundle.updateRecords recs (NodeBundle.Set n).2)
          (NodeBundle.Delete
            ⟨false, true, none, NodeBundle.updateRecords recs (NodeBundle.Set n).2⟩
            n.host n.port).2)
        n.host n.port = none
    rw [hdel]
    rw [updateRecords_delete _ n.host n.port hhost hport]
    exact recGet_recDelete _ n.host n.port
  · unfold NodeBundle.SetAll
    rw [if_pos hxs]
  · exact (getAll_sorted_perm_aux _).1
  · exact (getAll_sorted_perm_aux _).2

/-- Witness for C5 (amended) at concrete nodes. -/
theorem roundtrip_laws_witness :
    nodeValid nodeB3 = true ∧ ([nodeZ1] : List Node).all nodeValid = true ∧
      ((NodeBundle.Set nodeB3).1 = true ∧
        NodeBundle.Get
            ⟨false, true, none,
              NodeBundle.updateRecords [] (NodeBundle.Set nodeB3).2⟩
            nodeB3.host nodeB3.port = some nodeB3 ∧
        ((NodeBundle.Delete
              ⟨false, true, none,
                NodeBundle.updateRecords [] (NodeBundle.Set nodeB3).2⟩
              nodeB3.host nodeB3.port).1 = true ∧
          NodeBundle.Get
              ⟨false, true, none,
                NodeBundle.updateRecords
                  (NodeBundle.updateRecords [] (NodeBundle.Set nodeB3).2)
                  (NodeBundle.Delete
                    ⟨false, true, none,
                      NodeBundle.updateRecords [] (NodeBundle.Set nodeB3).2⟩
                    nodeB3.host nodeB3.port).2⟩
              nodeB3.host nodeB3.port = none) ∧
        ((NodeBundle.SetAll [nodeZ1]).1 = true ∧
          (NodeBundle.GetAll ⟨false, true, none,
              NodeBundle.updateRecords [] (NodeBundle.SetAll [nodeZ1]).2⟩).1.Perm
            (NodeBundle.updateRecords [] (NodeBundle.SetAll [nodeZ1]).2) ∧
          (NodeBundle.GetAll ⟨false, true, none,
              NodeBundle.updateRecords [] (NodeBundle.SetAll [nodeZ1]).2⟩).1.Pairwise
            rankLE)) :=
  ⟨by decide, by decide, roundtrip_laws nodeB3 [nodeZ1] [] (by decide) (by decide)⟩

end Spawn
